import Mathlib

/-
  Shallow embedding of the tabular preprocessing / model-comparison core of
  the repository (src/backend/preprocessing.py and src/backend/models.py).

  A pandas DataFrame is modelled as a header (column name and dtype string,
  in order) together with a list of rows; a cell is either missing (NaN/None)
  or a rational number or a string.  The pandas/sklearn primitives the code
  calls are modelled directly where their behaviour is documented and simple
  (quantile with linear interpolation, duplicated/drop_duplicates with NaN
  compared equal, LabelEncoder as sorted distinct stringified values); the
  sklearn training routines themselves are taken as parameters of the embedding.
-/

set_option allowUnsafeReducibility true
attribute [semireducible] Rat.add Rat.mul Rat.sub Rat.div Rat.inv

inductive Cell where
  | missing : Cell
  | num : ℚ → Cell
  | str : String → Cell
deriving DecidableEq, Repr

/-- Code-point lexicographic comparison of character lists: the order numpy
and Python use on strings, written out so that it evaluates by reduction. -/
def charListLe : List Char → List Char → Bool
  | [], _ => true
  | _ :: _, [] => false
  | c :: cs, d :: ds =>
    if c < d then true
    else if d < c then false
    else charListLe cs ds

/-- Lexicographic `≤` on strings (`sorted(...)` / `np.unique` order). -/
def strLe (a b : String) : Prop := charListLe a.data b.data = true

instance : DecidableRel strLe := fun a b => by unfold strLe; infer_instance

theorem charListLe_total (a b : List Char) :
    charListLe a b = true ∨ charListLe b a = true := by
  induction a generalizing b with
  | nil => exact Or.inl rfl
  | cons c cs ih =>
    cases b with
    | nil => exact Or.inr rfl
    | cons d ds =>
      by_cases hcd : c < d
      · left
        simp [charListLe, hcd]
      · by_cases hdc : d < c
        · right
          simp [charListLe, hdc]
        · rcases ih ds with h | h
          · left
            simp [charListLe, hcd, hdc, h]
          · right
            simp [charListLe, hcd, hdc, h]

theorem charListLe_trans (a b c : List Char)
    (hab : charListLe a b = true) (hbc : charListLe b c = true) :
    charListLe a c = true := by
  induction a generalizing b c with
  | nil => rfl
  | cons x xs ih =>
    cases b with
    | nil => simp [charListLe] at hab
    | cons y ys =>
      cases c with
      | nil => simp [charListLe] at hbc
      | cons z zs =>
        simp only [charListLe] at hab hbc ⊢
        by_cases hxy : x < y
        · by_cases hyz : y < z
          · simp [lt_trans hxy hyz]
          · by_cases hzy : z < y
            · simp [hyz, hzy] at hbc
            · have hyzeq : y = z := le_antisymm (not_lt.mp hzy) (not_lt.mp hyz)
              simp [hyzeq ▸ hxy]
        · by_cases hyx : y < x
          · simp [hxy, hyx] at hab
          · have hxyeq : x = y := le_antisymm (not_lt.mp hyx) (not_lt.mp hxy)
            subst hxyeq
            rw [if_neg (lt_irrefl x), if_neg (lt_irrefl x)] at hab
            by_cases hxz : x < z
            · rw [if_pos hxz]
            · rw [if_neg hxz] at hbc ⊢
              by_cases hzx : z < x
              · rw [if_pos hzx] at hbc
                exact absurd hbc (by simp)
              · rw [if_neg hzx] at hbc ⊢
                exact ih ys zs hab hbc

instance : IsTotal String strLe :=
  ⟨fun a b => charListLe_total a.data b.data⟩

instance : IsTrans String strLe :=
  ⟨fun a b c => charListLe_trans a.data b.data c.data⟩

structure Dataset where
  header : List (String × String)
  rows : List (List Cell)
deriving DecidableEq, Repr

def Dataset.shape (df : Dataset) : Nat × Nat :=
  (df.rows.length, df.header.length)

/-- Index of the first column carrying the given name (pandas `column in df.columns`
followed by positional access; `none` models absence). -/
def colIdx (df : Dataset) (c : String) : Option Nat :=
  df.header.findIdx? (fun h => h.1 == c)

def colDtype (df : Dataset) (i : Nat) : String :=
  (df.header.getD i ("", "")).2

def colName (df : Dataset) (i : Nat) : String :=
  (df.header.getD i ("", "")).1

/-- The cells of column `i`, in row order. -/
def colCells (df : Dataset) (i : Nat) : List Cell :=
  df.rows.map (fun r => r.getD i Cell.missing)

/-- Non-missing numeric values of column `i`, in row order. -/
def numericValues (df : Dataset) (i : Nat) : List ℚ :=
  df.rows.filterMap (fun r =>
    match r.getD i Cell.missing with
    | Cell.num q => some q
    | _ => none)

/-- Count of missing cells in column `i` (pandas `isnull().sum()`). -/
def missingCount (df : Dataset) (i : Nat) : Nat :=
  df.rows.countP (fun r => decide (r.getD i Cell.missing = Cell.missing))

/-- Missing fraction of column `i` (`isnull().sum() / len(df)`); on an empty
frame the rational convention `0 / 0 = 0` stands in for pandas' NaN, which
likewise fails every `>` comparison. -/
def missingFrac (df : Dataset) (i : Nat) : ℚ :=
  (missingCount df i : ℚ) / (df.rows.length : ℚ)

/-- Pointwise rewrite of column `i` (header dtype updated as well). -/
def setColumn (df : Dataset) (i : Nat) (f : Cell → Cell) (newDtype : String) : Dataset :=
  { header := df.header.set i (colName df i, newDtype),
    rows := df.rows.map (fun r => r.set i (f (r.getD i Cell.missing))) }

/-- Replace column `i` by an explicit list of cells (one per row, zipped). -/
def setColumnList (df : Dataset) (i : Nat) (cells : List Cell) (newDtype : String) : Dataset :=
  { header := df.header.set i (colName df i, newDtype),
    rows := (df.rows.zip cells).map (fun rv => rv.1.set i rv.2) }

/-- Drop every column whose name occurs in `names` (pandas `df.drop(columns=names)`). -/
def dropColumns (df : Dataset) (names : List String) : Dataset :=
  { header := df.header.filter (fun c => decide (c.1 ∉ names)),
    rows := df.rows.map (fun r =>
      ((df.header.zip r).filter (fun cv => decide (cv.1.1 ∉ names))).map (fun cv => cv.2)) }

/-- Deduplication keeping the first occurrence of each row, the semantics of
pandas `drop_duplicates` (NaN cells compare equal there, as `Cell.missing`
does here). -/
def firstDedup {α : Type} [DecidableEq α] : List α → List α
  | [] => []
  | a :: t => a :: (firstDedup t).filter (fun b => decide (b ≠ a))

theorem mem_firstDedup {α : Type} [DecidableEq α] (l : List α) (b : α) :
    b ∈ firstDedup l ↔ b ∈ l := by
  induction l with
  | nil => simp [firstDedup]
  | cons a t ih =>
    simp only [firstDedup, List.mem_cons, List.mem_filter, decide_eq_true_eq, ih]
    constructor
    · rintro (h | ⟨h, _⟩)
      · exact Or.inl h
      · exact Or.inr h
    · rintro (h | h)
      · exact Or.inl h
      · by_cases hba : b = a
        · exact Or.inl hba
        · exact Or.inr ⟨h, hba⟩

theorem nodup_firstDedup {α : Type} [DecidableEq α] (l : List α) :
    (firstDedup l).Nodup := by
  induction l with
  | nil => simp [firstDedup]
  | cons a t ih =>
    simp only [firstDedup]
    refine List.nodup_cons.mpr ⟨?_, ih.filter _⟩
    simp

theorem firstDedup_of_nodup {α : Type} [DecidableEq α] (l : List α) (h : l.Nodup) :
    firstDedup l = l := by
  induction l with
  | nil => rfl
  | cons a t ih =>
    rcases List.nodup_cons.mp h with ⟨ha, ht⟩
    have hfix : t.filter (fun b => decide (b ≠ a)) = t := by
      apply List.filter_eq_self.mpr
      intro b hb
      simp only [decide_eq_true_eq]
      intro hba
      exact ha (hba ▸ hb)
    simp only [firstDedup, ih ht, hfix]

theorem length_firstDedup_le {α : Type} [DecidableEq α] (l : List α) :
    (firstDedup l).length ≤ l.length := by
  induction l with
  | nil => simp [firstDedup]
  | cons a t ih =>
    simp only [firstDedup, List.length_cons]
    have := List.length_filter_le (fun b => decide (b ≠ a)) (firstDedup t)
    omega

theorem nodup_of_length_firstDedup {α : Type} [DecidableEq α] (l : List α)
    (h : (firstDedup l).length = l.length) : l.Nodup := by
  induction l with
  | nil => simp
  | cons a t ih =>
    simp only [firstDedup, List.length_cons] at h
    have hle1 := List.length_filter_le (fun b => decide (b ≠ a)) (firstDedup t)
    have hle2 := length_firstDedup_le t
    have hlenf : ((firstDedup t).filter (fun b => decide (b ≠ a))).length =
        (firstDedup t).length := by omega
    have hlen : (firstDedup t).length = t.length := by omega
    have ht := ih hlen
    refine List.nodup_cons.mpr ⟨?_, ht⟩
    intro hat
    have := List.filter_length_eq_length.mp hlenf a ((mem_firstDedup t a).mpr hat)
    simp at this

/-- Python `round` at integer level: round half to even. -/
def roundHalfEven (x : ℚ) : ℤ :=
  let f := ⌊x⌋
  let r := x - (f : ℚ)
  if r < 1/2 then f
  else if 1/2 < r then f + 1
  else if f % 2 = 0 then f else f + 1

/-- Python `round(x, 2)` (decimal model; binary-float artefacts not represented). -/
def round2 (x : ℚ) : ℚ := (roundHalfEven (x * 100) : ℚ) / 100

/-- Python `round(x, 4)`. -/
def round4 (x : ℚ) : ℚ := (roundHalfEven (x * 10000) : ℚ) / 10000

/-- `str(value)` on a cell; `astype(str)` turns NaN into the string "nan". -/
def stringify : Cell → String
  | Cell.missing => "nan"
  | Cell.str s => s
  | Cell.num q => if q.den = 1 then toString q.num else toString q.num ++ "/" ++ toString q.den

/-- One entry of `self.steps`: the union of the keys the various dicts appended
in preprocessing.py carry (absent keys are `none`/`[]`). -/
structure Step where
  step : String
  details : String
  column : Option String
  method : Option String
  new_type : Option String
  columns : List String
  missing_count : Option Nat
  fill_value : Option String
  removed_count : Option Nat
  lower_bound : Option ℚ
  upper_bound : Option ℚ
  encoding_type : Option String
deriving DecidableEq, Repr

def mkStep (s d : String) : Step :=
  ⟨s, d, none, none, none, [], none, none, none, none, none, none⟩

structure FillRecord where
  method : String
  count : Nat
  value : String
deriving DecidableEq, Repr

/-- `report['encodings_applied'][column]`: mapping for label encoding, the new
column names for one-hot. -/
structure EncodingRecord where
  method : String
  type : String
  mapping : List (String × Nat)
  onehot_columns : List String
deriving DecidableEq, Repr

structure Report where
  original_shape : Nat × Nat
  processed_shape : Option (Nat × Nat)
  steps_applied : List Step
  columns_removed : List String
  duplicates_removed : Nat
  missing_values_filled : List (String × List FillRecord)
  outliers_removed : List (String × Nat)
  encodings_applied : List (String × EncodingRecord)
deriving DecidableEq, Repr

/-- The mutable fields of a `DataPreprocessor` instance. -/
structure PState where
  original_df : Dataset
  df : Dataset
  steps : List Step
  report : Report
deriving DecidableEq, Repr

/-- Update an association list at a key, appending the new record (models
`report['missing_values_filled'][column].append(...)` with setdefault). -/
def assocAppend (l : List (String × List FillRecord)) (k : String) (v : FillRecord) :
    List (String × List FillRecord) :=
  match l.find? (fun p => p.1 == k) with
  | none => l ++ [(k, [v])]
  | some _ => l.map (fun p => if p.1 == k then (p.1, p.2 ++ [v]) else p)

/-- Set a key of an association list (insert or overwrite). -/
def assocSet {β : Type} (l : List (String × β)) (k : String) (v : β) : List (String × β) :=
  match l.find? (fun p => p.1 == k) with
  | none => l ++ [(k, v)]
  | some _ => l.map (fun p => if p.1 == k then (p.1, v) else p)

namespace DataPreprocessor

/-- `DataPreprocessor.__init__(df)`: both `original_df` and the working `df`
are copies of the argument; the step log starts empty. -/
def init (df : Dataset) : PState :=
  { original_df := df,
    df := df,
    steps := [],
    report :=
      { original_shape := df.shape,
        processed_shape := none,
        steps_applied := [],
        columns_removed := [],
        duplicates_removed := 0,
        missing_values_filled := [],
        outliers_removed := [],
        encodings_applied := [] } }

/-- `generate_report`. -/
def generate_report (st : PState) : Report :=
  { st.report with processed_shape := some st.df.shape, steps_applied := st.steps }

structure ColumnInfo where
  name : String
  type : String
  missing : Nat
  missing_percent : ℚ
  unique : Nat
  sample_values : List Cell
  suggested_actions : List String
deriving DecidableEq, Repr

def nonMissingCells (df : Dataset) (i : Nat) : List Cell :=
  (colCells df i).filter (fun c => decide (c ≠ Cell.missing))

/-- pandas `nunique()`: distinct non-missing values. -/
def nuniqueCol (df : Dataset) (i : Nat) : Nat :=
  (firstDedup (nonMissingCells df i)).length

def mkColumnInfo (df : Dataset) (i : Nat) : ColumnInfo :=
  let dt := colDtype df i
  let missing := missingCount df i
  let mp := round2 ((missingCount df i : ℚ) / (df.rows.length : ℚ) * 100)
  let uniq := nuniqueCol df i
  let sa0 : List String :=
    if 50 < mp then ["drop_column"]
    else if 0 < mp then ["fill_missing"]
    else []
  let sa1 : List String :=
    if dt = "object" ∧ uniq < 20 then sa0 ++ ["label_encode", "onehot_encode"] else sa0
  let sa2 : List String :=
    if dt = "int64" ∨ dt = "float64" then
      (sa1 ++ ["remove_outliers"]) ++ (if uniq < 10 then ["convert_to_categorical"] else [])
    else sa1
  { name := colName df i,
    type := dt,
    missing := missing,
    missing_percent := mp,
    unique := uniq,
    sample_values := if 0 < uniq then (nonMissingCells df i).take 5 else [],
    suggested_actions := sa2 }

/-- `get_column_info` over the working dataframe. -/
def get_column_info (df : Dataset) : List ColumnInfo :=
  (List.range df.header.length).map (fun i => mkColumnInfo df i)

/-- Names of the columns whose missing fraction strictly exceeds the threshold. -/
def high_missing_names (df : Dataset) (threshold : ℚ) : List String :=
  ((List.range df.header.length).filter (fun i => decide (threshold < missingFrac df i))).map
    (fun i => colName df i)

/-- `drop_high_missing_columns(threshold)`. -/
def drop_high_missing_columns (st : PState) (threshold : ℚ) : PState :=
  let cols_to_drop := high_missing_names st.df threshold
  if cols_to_drop.isEmpty then st
  else
    { st with
      df := dropColumns st.df cols_to_drop,
      steps := st.steps ++
        [{ mkStep "drop_high_missing"
            ("Dropped " ++ toString cols_to_drop.length ++ " columns with high missing values")
            with columns := cols_to_drop }],
      report := { st.report with
        columns_removed := st.report.columns_removed ++ cols_to_drop } }

/-- `df.duplicated().sum()`: rows equal to an earlier row. -/
def duplicatesCount (rows : List (List Cell)) : Nat :=
  rows.length - (firstDedup rows).length

/-- `remove_duplicates()`. -/
def remove_duplicates (st : PState) : PState :=
  let c := duplicatesCount st.df.rows
  if 0 < c then
    { st with
      df := { st.df with rows := firstDedup st.df.rows },
      steps := st.steps ++
        [mkStep "remove_duplicates" ("Removed " ++ toString c ++ " duplicate rows")],
      report := { st.report with duplicates_removed := c } }
  else st

end DataPreprocessor

namespace DataPreprocessor

/-- `pd.to_numeric(..., errors="coerce")` on a cell: numbers pass through,
strings parse or coerce to missing (numeric string parsing modelled for
integer literals, the only form the claims exercise). -/
def to_numeric_cell : Cell → Cell
  | Cell.missing => Cell.missing
  | Cell.num q => Cell.num q
  | Cell.str s =>
    match s.toInt? with
    | some n => Cell.num (n : ℚ)
    | none => Cell.missing

/-- `change_data_type(column, new_type)`: raises if the column is absent;
otherwise runs the matching conversion branch (an unknown `new_type` matches
no branch and converts nothing) and appends the step entry unconditionally.
Only the `integer` branch can fail inside the `try` (non-integral values
cannot be cast to Int64); `datetime` keeps cell values, abstracting timestamp
parsing, which no claim exercises. -/
def change_data_type (st : PState) (column : String) (new_type : String) :
    Except String PState :=
  match colIdx st.df column with
  | none => Except.error ("Column " ++ column ++ " not found")
  | some i =>
    let convert : Except String Dataset :=
      if new_type = "numeric" then
        Except.ok (setColumn st.df i to_numeric_cell
          (if (numericValues st.df i).all (fun q => q.den = 1) ∧ missingCount st.df i = 0
           then "int64" else "float64"))
      else if new_type = "integer" then
        if ((colCells st.df i).map to_numeric_cell).all
            (fun c => match c with | Cell.num q => q.den = 1 | _ => true) then
          Except.ok (setColumn st.df i to_numeric_cell "Int64")
        else
          Except.error ("Failed to convert " ++ column ++ " to " ++ new_type)
      else if new_type = "float" then
        Except.ok (setColumn st.df i to_numeric_cell "float64")
      else if new_type = "datetime" then
        Except.ok (setColumn st.df i (fun c => c) "datetime64[ns]")
      else if new_type = "string" then
        Except.ok (setColumn st.df i (fun c => Cell.str (stringify c)) "object")
      else if new_type = "category" then
        Except.ok (setColumn st.df i (fun c => c) "category")
      else
        Except.ok st.df
    match convert with
    | Except.error e => Except.error e
    | Except.ok df' =>
      Except.ok
        { st with
          df := df',
          steps := st.steps ++
            [{ mkStep "change_data_type" ("Changed " ++ column ++ " to " ++ new_type)
                with column := some column, new_type := some new_type }] }

/-- Boolean order on cells used to model which value `mode()[0]` returns
(pandas sorts the modes; ties across kinds are unclaimed). -/
def cellLeB : Cell → Cell → Bool
  | Cell.missing, _ => true
  | _, Cell.missing => false
  | Cell.num a, Cell.num b => decide (a ≤ b)
  | Cell.num _, Cell.str _ => true
  | Cell.str _, Cell.num _ => false
  | Cell.str a, Cell.str b => charListLe a.data b.data

/-- First entry of `mode()`: least value of maximal multiplicity among the
non-missing cells; `none` when every cell is missing. -/
def modeCell (cs : List Cell) : Option Cell :=
  let nm := cs.filter (fun c => decide (c ≠ Cell.missing))
  match nm with
  | [] => none
  | c0 :: rest =>
    some ((c0 :: rest).foldl
      (fun best c =>
        if nm.count best < nm.count c then c
        else if nm.count c = nm.count best ∧ cellLeB c best then c
        else best)
      c0)

/-- Forward fill along row order, carrying the last non-missing value. -/
def ffillCells (last : Option Cell) : List Cell → List Cell
  | [] => []
  | Cell.missing :: t =>
    (match last with | some v => v | none => Cell.missing) :: ffillCells last t
  | c :: t => c :: ffillCells (some c) t

def bfillCells (cs : List Cell) : List Cell :=
  (ffillCells none cs.reverse).reverse

def isNumericDtype (dt : String) : Bool :=
  dt == "int64" || dt == "float64"

/-- Mean of the non-missing numeric values; the empty column (pandas NaN mean)
falls back to `0`, a case no claim exercises. -/
def colMean (df : Dataset) (i : Nat) : ℚ :=
  ((numericValues df i).sum) / ((numericValues df i).length : ℚ)

/-- `quantile(q)` with linear interpolation over an ascending-sorted
non-empty list. -/
def quantileLinear (vs : List ℚ) (q : ℚ) : ℚ :=
  let n := vs.length
  let h : ℚ := q * ((n : ℚ) - 1)
  let i : Nat := (⌊h⌋).toNat
  let g : ℚ := h - (i : ℚ)
  let lo := vs.getD i 0
  let hi := vs.getD (i + 1) lo
  lo + g * (hi - lo)

/-- `median()` = linear-interpolation quantile at 1/2. -/
def colMedian (df : Dataset) (i : Nat) : ℚ :=
  quantileLinear (List.insertionSort (· ≤ ·) (numericValues df i)) (1/2)

/-- `fill_missing_values(column, method, custom_value)`, mirroring the
if/elif chain of the source: the chosen fill value (when any) replaces the
missing cells, forward/backward fill rewrite the column directly, and a step
entry is appended whenever the column had missing cells. -/
def fill_missing_values (st : PState) (column : String) (method : String)
    (custom_value : Option Cell) : Except String PState :=
  match colIdx st.df column with
  | none => Except.error ("Column " ++ column ++ " not found")
  | some i =>
    let missing_count := missingCount st.df i
    if missing_count = 0 then Except.ok st
    else
      let dt := colDtype st.df i
      let fillAndDf : Option Cell × Dataset :=
        if method = "mean" ∧ isNumericDtype dt then
          (some (Cell.num (colMean st.df i)), st.df)
        else if method = "median" ∧ isNumericDtype dt then
          (some (Cell.num (colMedian st.df i)), st.df)
        else if method = "mode" then
          (modeCell (colCells st.df i), st.df)
        else if method = "custom" ∧ custom_value.isSome then
          (custom_value, st.df)
        else if method = "forward_fill" then
          (none, setColumnList st.df i (ffillCells none (colCells st.df i)) dt)
        else if method = "backward_fill" then
          (none, setColumnList st.df i (bfillCells (colCells st.df i)) dt)
        else
          (some (if isNumericDtype dt then Cell.num 0 else Cell.str ""), st.df)
      let df' :=
        match fillAndDf.1 with
        | some v => setColumn fillAndDf.2 i
            (fun c => if c = Cell.missing then v else c) dt
        | none => fillAndDf.2
      Except.ok
        { st with
          df := df',
          steps := st.steps ++
            [{ mkStep "fill_missing"
                ("Filled " ++ toString missing_count ++ " missing values in " ++ column ++
                  " with " ++ method)
                with
                column := some column,
                method := some method,
                missing_count := some missing_count,
                fill_value := some (match fillAndDf.1 with
                  | some v => stringify v
                  | none => "N/A") }],
          report := { st.report with
            missing_values_filled :=
              assocAppend st.report.missing_values_filled column
                ⟨method, missing_count,
                  match fillAndDf.1 with
                  | some v => stringify v
                  | none => "N/A"⟩ } }

/-- The row test `(df[column] < lower) | (df[column] > upper)`: true only on a
numeric cell strictly outside the bounds (NaN comparisons are false). -/
def outlierPred (i : Nat) (lower upper : ℚ) (r : List Cell) : Bool :=
  match r.getD i Cell.missing with
  | Cell.num q => decide (q < lower) || decide (upper < q)
  | _ => false

/-- The row test `(df[column] >= lower) & (df[column] <= upper)`: true only on
a numeric cell inside the bounds (NaN comparisons are false, so missing cells
fail it). -/
def keepPred (i : Nat) (lower upper : ℚ) (r : List Cell) : Bool :=
  match r.getD i Cell.missing with
  | Cell.num q => decide (lower ≤ q) && decide (q ≤ upper)
  | _ => false

/-- The non-missing values of column `i` in ascending order, the list pandas
`quantile` interpolates over. -/
def sortedVals (df : Dataset) (i : Nat) : List ℚ :=
  List.insertionSort (· ≤ ·) (numericValues df i)

/-- `Q1 = df[column].quantile(0.25)`. -/
def q1Of (df : Dataset) (i : Nat) : ℚ := quantileLinear (sortedVals df i) (1/4)

/-- `Q3 = df[column].quantile(0.75)`. -/
def q3Of (df : Dataset) (i : Nat) : ℚ := quantileLinear (sortedVals df i) (3/4)

/-- `lower_bound = Q1 - 1.5 * IQR`. -/
def lowerOf (df : Dataset) (i : Nat) : ℚ :=
  q1Of df i - (3/2) * (q3Of df i - q1Of df i)

/-- `upper_bound = Q3 + 1.5 * IQR`. -/
def upperOf (df : Dataset) (i : Nat) : ℚ :=
  q3Of df i + (3/2) * (q3Of df i - q1Of df i)

/-- `remove_outliers(column, method="iqr")`: silent no-op on an absent or
non-numeric column; otherwise IQR bounds from the linear-interpolation
quartiles of the non-missing values, and — when at least one value lies
strictly outside the bounds — the frame is filtered to the rows whose value
satisfies `lower ≤ v ≤ upper` (rows whose cell is missing fail that test and
are dropped too, exactly as NaN comparisons do in pandas). -/
def remove_outliers (st : PState) (column : String) (method : String) : PState :=
  match colIdx st.df column with
  | none => st
  | some i =>
    if ¬ isNumericDtype (colDtype st.df i) then st
    else
      if (sortedVals st.df i).isEmpty then st
      else
        let lower_bound := lowerOf st.df i
        let upper_bound := upperOf st.df i
        let outlier_count := st.df.rows.countP (outlierPred i lower_bound upper_bound)
        if 0 < outlier_count then
          let kept := st.df.rows.filter (keepPred i lower_bound upper_bound)
          let removed := st.df.rows.length - kept.length
          { st with
            df := { st.df with rows := kept },
            steps := st.steps ++
              [{ mkStep "remove_outliers"
                  ("Removed " ++ toString removed ++ " outliers from " ++ column ++
                    " using IQR method")
                  with
                  column := some column,
                  method := some method,
                  removed_count := some removed,
                  lower_bound := some (round2 lower_bound),
                  upper_bound := some (round2 upper_bound) }],
            report := { st.report with
              outliers_removed := assocSet st.report.outliers_removed column removed } }
        else st

/-- `LabelEncoder` classes: distinct stringified values in ascending
lexicographic order (`np.unique`). -/
def labelClasses (strs : List String) : List String :=
  List.insertionSort strLe strs.dedup

/-- `encode_categorical(column, method)`: raises unless the column exists with
object dtype.  `label` replaces each value by the index of its stringified
form among the sorted distinct values and records the value→code mapping in
the report; `onehot` expands into indicator columns appended at the end
(`dummy_na=True` adds a trailing indicator for missing).  Any other method
crashes in the source (`encoding_type` unbound) and is an error here. -/
def encode_categorical (st : PState) (column : String) (method : String) :
    Except String PState :=
  match colIdx st.df column with
  | none => Except.error ("Column " ++ column ++ " is not categorical")
  | some i =>
    if colDtype st.df i ≠ "object" then
      Except.error ("Column " ++ column ++ " is not categorical")
    else if method = "label" then
      let strs := (colCells st.df i).map stringify
      let classes := labelClasses strs
      let mapping := classes.zip (List.range classes.length)
      Except.ok
        { st with
          df := setColumn st.df i
            (fun c => Cell.num ((classes.indexOf (stringify c) : Nat) : ℚ)) "int64",
          steps := st.steps ++
            [{ mkStep "encode_categorical" ("Applied Label Encoding to " ++ column)
                with
                column := some column,
                method := some method,
                encoding_type := some "Label Encoding" }],
          report := { st.report with
            encodings_applied := assocSet st.report.encodings_applied column
              ⟨method, "Label Encoding", mapping, []⟩ } }
    else if method = "onehot" then
      let valueCols := (List.insertionSort strLe
        (((colCells st.df i).filter (fun c => decide (c ≠ Cell.missing))).map stringify).dedup)
      let dummyNames := (valueCols.map (fun v => column ++ "_" ++ v)) ++ [column ++ "_nan"]
      let dropped := dropColumns st.df [column]
      let indicator (r : List Cell) (v : String) : Cell :=
        Cell.num (if stringify (r.getD i Cell.missing) = v ∧
                     r.getD i Cell.missing ≠ Cell.missing then 1 else 0)
      let naIndicator (r : List Cell) : Cell :=
        Cell.num (if r.getD i Cell.missing = Cell.missing then 1 else 0)
      Except.ok
        { st with
          df := { header := dropped.header ++ dummyNames.map (fun n => (n, "bool")),
                  rows := (st.df.rows.zip dropped.rows).map (fun rr =>
                    rr.2 ++ valueCols.map (indicator rr.1) ++ [naIndicator rr.1]) },
          steps := st.steps ++
            [{ mkStep "encode_categorical" ("Applied One-Hot Encoding to " ++ column)
                with
                column := some column,
                method := some method,
                encoding_type := some "One-Hot Encoding" }],
          report := { st.report with
            encodings_applied := assocSet st.report.encodings_applied column
              ⟨method, "One-Hot Encoding", [],
                dummyNames.map (fun n => column ++ "_" ++ n)⟩ } }
    else
      Except.error "encoding_type is not defined"

end DataPreprocessor

/-- One element of the `steps` list passed to `apply_preprocessing_steps`
(`step.get(...)`; a missing key behaves like a name not present in the frame,
modelled by an arbitrary string). -/
structure StepSpec where
  action : String
  column : String
  method : String
  value : Option Cell
deriving DecidableEq, Repr

namespace DataPreprocessor

/-- The `drop_column` arm of the dispatcher: drop and log only when the column
is present, silently do nothing otherwise. -/
def drop_column_step (st : PState) (column : String) : PState :=
  match colIdx st.df column with
  | none => st
  | some _ =>
    { st with
      df := dropColumns st.df [column],
      steps := st.steps ++
        [{ mkStep "drop_column" ("Dropped column: " ++ column)
            with column := some column }] }

/-- One iteration of the loop in `apply_preprocessing_steps`. -/
def apply_one (st : PState) (s : StepSpec) : Except String PState :=
  if s.action = "change_type" then change_data_type st s.column s.method
  else if s.action = "fill_missing" then fill_missing_values st s.column s.method s.value
  else if s.action = "encode" then encode_categorical st s.column s.method
  else if s.action = "remove_outliers" then Except.ok (remove_outliers st s.column "iqr")
  else if s.action = "drop_column" then Except.ok (drop_column_step st s.column)
  else Except.ok st

/-- The explicit loop of `apply_preprocessing_steps`: steps run strictly in
order, an exception aborts the remainder. -/
def run_steps : PState → List StepSpec → Except String PState
  | st, [] => Except.ok st
  | st, s :: rest =>
    match apply_one st s with
    | Except.error e => Except.error e
    | Except.ok st' => run_steps st' rest

/-- `apply_preprocessing_steps(steps)`: the explicit list, then the two
automatic cleanup passes in fixed order. -/
def apply_preprocessing_steps (st : PState) (steps : List StepSpec) :
    Except String PState :=
  match run_steps st steps with
  | Except.error e => Except.error e
  | Except.ok st1 => Except.ok (remove_duplicates (drop_high_missing_columns st1 (1/2)))

end DataPreprocessor

/-
  src/backend/models.py — ModelComparator.  The sklearn estimators are
  external: the embedding takes the train/test splitter, the per-model
  train-and-score routine and the k-means/silhouette pass as parameters and
  captures the orchestration the repository implements around them.
-/

inductive Score where
  | num : ℚ → Score
  | txt : String → Score
deriving DecidableEq, Repr

structure ModelResult where
  model : String
  score : Score
  metric : String
  status : String
deriving DecidableEq, Repr

structure ComparisonRow where
  model : String
  original : Score
  processed : Score
  improvement : Score
  metric : String
  status : String
deriving DecidableEq, Repr

namespace ModelComparator

abbrev Features := List (List ℚ)
abbrev Target := List ℚ

/-- Outcome of `train_test_split(X, y, test_size, random_state=42)`. -/
structure SplitResult where
  X_train : Features
  X_test : Features
  y_train : Target
  y_test : Target
deriving Repr

abbrev SplitFn := Features → Target → ℚ → SplitResult

/-- `model.fit(X_train, y_train); model.predict(X_test)` and the scoring
metric, for the model of the given name; an exception is an `error` value. -/
abbrev TrainScoreFn := String → SplitResult → Except String ℚ

/-- The k-means + silhouette pass; `none` when it is silently skipped
(failure, a single cluster, or fewer than two distinct targets). -/
abbrev KMeansFn := Features → Target → Option (ℚ × Nat)

def classificationModels : List String :=
  ["Logistic Regression", "Random Forest", "Decision Tree", "SVM"]

def regressionModels : List String :=
  ["Linear Regression", "Random Forest", "Decision Tree", "SVM"]

/-- The battery run over the already-split data: each model trains and scores
in order, a per-model failure becoming a `status:"error"` result with the
message truncated to 100 characters, then the optional K-Means row.
(The secondary mse/mae fields of regression results are not modelled.) -/
def run_battery (ts : TrainScoreFn) (km : KMeansFn) (split : SplitResult)
    (X : Features) (y : Target) (problem_type : String) : List ModelResult :=
  let names := if problem_type = "classification" then classificationModels
               else regressionModels
  let metricName := if problem_type = "classification" then "Accuracy" else "R² Score"
  let base := names.map (fun name =>
    match ts name split with
    | Except.ok s => ⟨name, Score.num (round4 s), metricName, "success"⟩
    | Except.error e => ⟨name, Score.txt "Error", e.take 100, "error"⟩)
  let kmRows := match km X y with
    | some sk => [⟨"K-Means", Score.num (round4 sk.1), "Silhouette Score", "success"⟩]
    | none => []
  base ++ kmRows

/-- `evaluate_models(X, y, problem_type, test_size)`: the row-count guard, then
the split, then the battery over the split partitions. -/
def evaluate_models (sf : SplitFn) (ts : TrainScoreFn) (km : KMeansFn)
    (X : Features) (y : Target) (problem_type : String) (test_size : ℚ) :
    Except String (List ModelResult) :=
  if X.length < 20 then Except.error "Not enough data for model evaluation"
  else Except.ok (run_battery ts km (sf X y test_size) X y problem_type)

/-- Names of the results with success status, in order of appearance. -/
def successNames (rs : List ModelResult) : List String :=
  (rs.filter (fun r => r.status == "success")).map (fun r => r.model)

/-- `next((r for r in results if r['model'] == name and r['status'] == 'success'), None)`. -/
def findSuccess (rs : List ModelResult) (n : String) : Option ModelResult :=
  rs.find? (fun r => r.model == n && r.status == "success")

/-- `float(score)` if the score is numeric else the literal `0` the source
substitutes. -/
def scoreFloat : Score → ℚ
  | Score.num q => q
  | Score.txt _ => 0

/-- The body of the pairing loop: a row for `n` exactly when both runs hold a
success result for model `n`, with improvement = processed − original. -/
def pairRow (original processed : List ModelResult) (n : String) : Option ComparisonRow :=
  match findSuccess original n, findSuccess processed n with
  | some r1, some r2 =>
    some ⟨n, r1.score, r2.score,
      Score.num (scoreFloat r2.score - scoreFloat r1.score), r1.metric, "success"⟩
  | _, _ => none

/-- The pairing loop of `compare_datasets` (lines 196–220): the set of names
with a success result on either side (Python set order modelled as first
appearance), one row per name for which both sides hold a success result. -/
def compare_rows (original processed : List ModelResult) : List ComparisonRow :=
  (firstDedup (successNames original ++ successNames processed)).filterMap
    (pairRow original processed)

end ModelComparator

/-
  Claim theorems.
-/

section ClaimProofs

open DataPreprocessor ModelComparator

theorem change_data_type_original (st : PState) (c t : String) (st' : PState)
    (h : change_data_type st c t = Except.ok st') :
    st'.original_df = st.original_df := by
  unfold change_data_type at h
  repeat' (first | split at h | dsimp only at h)
  all_goals (first | (cases h; rfl) | (simp at h))

theorem fill_missing_values_original (st : PState) (c m : String) (v : Option Cell)
    (st' : PState) (h : fill_missing_values st c m v = Except.ok st') :
    st'.original_df = st.original_df := by
  unfold fill_missing_values at h
  repeat' (first | split at h | dsimp only at h)
  all_goals (first | (cases h; rfl) | (simp at h))

theorem encode_categorical_original (st : PState) (c m : String) (st' : PState)
    (h : encode_categorical st c m = Except.ok st') :
    st'.original_df = st.original_df := by
  unfold encode_categorical at h
  repeat' (first | split at h | dsimp only at h)
  all_goals (first | (cases h; rfl) | (simp at h))

theorem remove_outliers_original (st : PState) (c m : String) :
    (remove_outliers st c m).original_df = st.original_df := by
  unfold remove_outliers
  repeat' (first | split | dsimp only)

theorem drop_column_step_original (st : PState) (c : String) :
    (drop_column_step st c).original_df = st.original_df := by
  unfold drop_column_step
  repeat' (first | split | dsimp only)

theorem drop_high_missing_columns_original (st : PState) (θ : ℚ) :
    (drop_high_missing_columns st θ).original_df = st.original_df := by
  unfold drop_high_missing_columns
  repeat' (first | split | dsimp only)

theorem remove_duplicates_original (st : PState) :
    (remove_duplicates st).original_df = st.original_df := by
  unfold remove_duplicates
  repeat' (first | split | dsimp only)

theorem apply_one_original (st : PState) (s : StepSpec) (st' : PState)
    (h : apply_one st s = Except.ok st') :
    st'.original_df = st.original_df := by
  unfold apply_one at h
  repeat' split at h
  · exact change_data_type_original st s.column s.method st' h
  · exact fill_missing_values_original st s.column s.method s.value st' h
  · exact encode_categorical_original st s.column s.method st' h
  · cases h; exact remove_outliers_original st s.column "iqr"
  · cases h; exact drop_column_step_original st s.column
  · cases h; rfl

theorem run_steps_original (steps : List StepSpec) (st st' : PState)
    (h : run_steps st steps = Except.ok st') :
    st'.original_df = st.original_df := by
  induction steps generalizing st with
  | nil => unfold run_steps at h; cases h; rfl
  | cons s rest ih =>
    unfold run_steps at h
    split at h
    · exact absurd h (by simp)
    · rename_i st1 h1
      exact (ih st1 h).trans (apply_one_original st s st1 h1)

theorem apply_preprocessing_steps_original (st : PState) (steps : List StepSpec)
    (st' : PState) (h : apply_preprocessing_steps st steps = Except.ok st') :
    st'.original_df = st.original_df := by
  unfold apply_preprocessing_steps at h
  split at h
  · exact absurd h (by simp)
  · rename_i st1 h1
    cases h
    rw [remove_duplicates_original, drop_high_missing_columns_original]
    exact run_steps_original steps st st1 h1

/-- C1: the pipeline — a `DataPreprocessor` built from a dataset followed by
`apply_preprocessing_steps` with an arbitrary step list — never touches the
dataset it was constructed from: the retained `original_df` copy is still
exactly the constructor argument afterwards, and in particular its shape and
contents are unchanged. -/
theorem C1_pipeline_never_mutates_original (df : Dataset) (steps : List StepSpec)
    (st' : PState)
    (h : apply_preprocessing_steps (DataPreprocessor.init df) steps = Except.ok st') :
    st'.original_df = df ∧ st'.original_df.shape = df.shape := by
  have h1 := apply_preprocessing_steps_original (DataPreprocessor.init df) steps st' h
  have h2 : (DataPreprocessor.init df).original_df = df := rfl
  rw [h2] at h1
  exact ⟨h1, by rw [h1]⟩

def dfW1 : Dataset :=
  ⟨[("a", "float64"), ("b", "object")],
   [[Cell.num 1, Cell.str "x"], [Cell.num 2, Cell.str "y"]]⟩

def stepsW1 : List StepSpec := [⟨"drop_column", "a", "", none⟩]

theorem C1_witness :
    apply_preprocessing_steps (DataPreprocessor.init dfW1) stepsW1 =
      Except.ok (remove_duplicates (drop_high_missing_columns
        (drop_column_step (DataPreprocessor.init dfW1) "a") (1/2))) ∧
    (remove_duplicates (drop_high_missing_columns
      (drop_column_step (DataPreprocessor.init dfW1) "a") (1/2))).original_df = dfW1 ∧
    (remove_duplicates (drop_high_missing_columns
      (drop_column_step (DataPreprocessor.init dfW1) "a") (1/2))).original_df.shape =
        dfW1.shape := by
  have h : apply_preprocessing_steps (DataPreprocessor.init dfW1) stepsW1 =
      Except.ok (remove_duplicates (drop_high_missing_columns
        (drop_column_step (DataPreprocessor.init dfW1) "a") (1/2))) := by rfl
  exact ⟨h, C1_pipeline_never_mutates_original dfW1 stepsW1 _ h⟩

def dfC2 : Dataset :=
  ⟨[("c", "object")],
   [[Cell.str "a"], [Cell.missing], [Cell.missing], [Cell.missing]]⟩

/-- C2 fails as stated: a text column with 75% missing values and one unique
value gets `drop_column` AND both encoding suggestions, because the dtype-based
suggestions are separate `if`s, not part of the missing-percent chain. -/
theorem C2_counterexample :
    (get_column_info dfC2).map (fun ci => ci.missing_percent) = [75] ∧
    (get_column_info dfC2).map (fun ci => ci.suggested_actions) =
      [["drop_column", "label_encode", "onehot_encode"]] ∧
    ¬ (get_column_info dfC2).map (fun ci => ci.suggested_actions) = [["drop_column"]] := by
  refine ⟨by decide, by decide, by decide⟩

/-- C2 (amended): a column with missing_percent > 50 always gets the
`drop_column` suggestion and never `fill_missing`, but the dtype-driven
suggestions (label/onehot encoding for low-cardinality text columns,
remove_outliers and convert_to_categorical for numeric columns) may still
accompany it. -/
theorem C2_high_missing_suggests_drop (df : Dataset) (ci : ColumnInfo)
    (hci : ci ∈ get_column_info df) (h : 50 < ci.missing_percent) :
    "drop_column" ∈ ci.suggested_actions ∧ "fill_missing" ∉ ci.suggested_actions := by
  rcases List.mem_map.mp hci with ⟨i, _, rfl⟩
  simp only [mkColumnInfo] at h ⊢
  split_ifs with h1 h2 h3 h4 h5 <;> decide

def dfW2 : Dataset :=
  ⟨[("c", "float64")],
   [[Cell.num 3], [Cell.missing], [Cell.missing], [Cell.missing]]⟩

theorem C2_witness :
    mkColumnInfo dfW2 0 ∈ get_column_info dfW2 ∧
    50 < (mkColumnInfo dfW2 0).missing_percent ∧
    "drop_column" ∈ (mkColumnInfo dfW2 0).suggested_actions ∧
    "fill_missing" ∉ (mkColumnInfo dfW2 0).suggested_actions := by
  refine ⟨by decide, by decide, ?_⟩
  exact C2_high_missing_suggests_drop dfW2 (mkColumnInfo dfW2 0) (by decide) (by decide)

theorem remove_duplicates_rows (st : PState) :
    (remove_duplicates st).df.rows = firstDedup st.df.rows := by
  by_cases h : 0 < duplicatesCount st.df.rows
  · simp [remove_duplicates, h]
  · have hle := length_firstDedup_le st.df.rows
    have hlen : (firstDedup st.df.rows).length = st.df.rows.length := by
      unfold duplicatesCount at h
      omega
    simp [remove_duplicates, h,
      firstDedup_of_nodup _ (nodup_of_length_firstDedup _ hlen)]

theorem drop_high_missing_columns_header (st : PState) (θ : ℚ) :
    (drop_high_missing_columns st θ).df.header =
      st.df.header.filter (fun c => decide (c.1 ∉ high_missing_names st.df θ)) := by
  by_cases hemp : (high_missing_names st.df θ).isEmpty
  · have hnil := List.isEmpty_iff.mp hemp
    simp [drop_high_missing_columns, hemp, hnil]
  · simp [drop_high_missing_columns, hemp, dropColumns]

/-- C3: `apply_preprocessing_steps` always ends a successful run of the
explicit step list by the two implicit cleanup passes in fixed order — the
high-missing column drop (columns whose missing fraction exceeds 0.5, removed
from the header) followed by exact-duplicate row removal (remaining rows are
the first-occurrence deduplication) — whether or not the step list asked for
them. -/
theorem C3_implicit_cleanup_passes (st : PState) (steps : List StepSpec) (st1 : PState)
    (h : run_steps st steps = Except.ok st1) :
    apply_preprocessing_steps st steps =
      Except.ok (remove_duplicates (drop_high_missing_columns st1 (1/2))) ∧
    (drop_high_missing_columns st1 (1/2)).df.header =
      st1.df.header.filter (fun c => decide (c.1 ∉ high_missing_names st1.df (1/2))) ∧
    (remove_duplicates (drop_high_missing_columns st1 (1/2))).df.rows =
      firstDedup (drop_high_missing_columns st1 (1/2)).df.rows := by
  refine ⟨?_, drop_high_missing_columns_header st1 (1/2), remove_duplicates_rows _⟩
  unfold apply_preprocessing_steps
  rw [h]

def dfC3 : Dataset :=
  ⟨[("a", "float64"), ("b", "object")],
   [[Cell.missing, Cell.str "x"], [Cell.missing, Cell.str "x"],
    [Cell.missing, Cell.str "y"]]⟩

theorem C3_witness :
    apply_preprocessing_steps (DataPreprocessor.init dfC3) [] =
      Except.ok (remove_duplicates (drop_high_missing_columns
        (DataPreprocessor.init dfC3) (1/2))) ∧
    (remove_duplicates (drop_high_missing_columns
      (DataPreprocessor.init dfC3) (1/2))).df =
        ⟨[("b", "object")], [[Cell.str "x"], [Cell.str "y"]]⟩ := by
  have h := C3_implicit_cleanup_passes (DataPreprocessor.init dfC3) []
    (DataPreprocessor.init dfC3) rfl
  exact ⟨h.1, by decide⟩

def dfC4 : Dataset :=
  ⟨[("A", "float64"), ("B", "object")],
   [[Cell.num 1, Cell.str "x"], [Cell.num 1, Cell.str "x"], [Cell.num 1, Cell.str "x"],
    [Cell.missing, Cell.str "y"], [Cell.missing, Cell.str "z"]]⟩

/-- C4 fails as stated: removing duplicate rows can push a column's missing
fraction above 0.5 (here from 2/5 to 2/3), so the second cleanup pass drops a
column the first left alone and logs a further step. -/
theorem C4_counterexample :
    (remove_duplicates (drop_high_missing_columns
        (remove_duplicates (drop_high_missing_columns
          (DataPreprocessor.init dfC4) (1/2))) (1/2))).df ≠
      (remove_duplicates (drop_high_missing_columns
        (DataPreprocessor.init dfC4) (1/2))).df ∧
    (remove_duplicates (drop_high_missing_columns
        (remove_duplicates (drop_high_missing_columns
          (DataPreprocessor.init dfC4) (1/2))) (1/2))).steps.length =
      (remove_duplicates (drop_high_missing_columns
        (DataPreprocessor.init dfC4) (1/2))).steps.length + 1 := by
  refine ⟨by decide, by decide⟩

theorem remove_duplicates_rows_nodup (st : PState) :
    (remove_duplicates st).df.rows.Nodup := by
  rw [remove_duplicates_rows]
  exact nodup_firstDedup _

/-- C4 (amended): the cleanup sequence `drop_high_missing_columns(0.5)` then
`remove_duplicates` applied a second time is the identity — same dataset, and
nothing appended to the step log — provided no column of the once-cleaned
dataset still has missing fraction above 0.5 (duplicate removal can break
that proviso, which is exactly what the counterexample exploits). -/
theorem C4_cleanup_idempotent_amended (st : PState)
    (h : ∀ i < (remove_duplicates (drop_high_missing_columns st (1/2))).df.header.length,
        ¬ (1/2 : ℚ) < missingFrac
          (remove_duplicates (drop_high_missing_columns st (1/2))).df i) :
    remove_duplicates (drop_high_missing_columns
      (remove_duplicates (drop_high_missing_columns st (1/2))) (1/2)) =
    remove_duplicates (drop_high_missing_columns st (1/2)) := by
  set st1 := remove_duplicates (drop_high_missing_columns st (1/2)) with hst1
  have hnil : high_missing_names st1.df (1/2) = [] := by
    unfold high_missing_names
    rw [List.filter_eq_nil_iff.mpr, List.map_nil]
    intro i hi
    simp only [List.mem_range] at hi
    simp only [decide_eq_true_eq]
    exact h i hi
  have hdrop : drop_high_missing_columns st1 (1/2) = st1 := by
    unfold drop_high_missing_columns
    simp only [hnil]
    simp
  rw [hdrop]
  have hnodup : st1.df.rows.Nodup := remove_duplicates_rows_nodup _
  have hcount : duplicatesCount st1.df.rows = 0 := by
    unfold duplicatesCount
    rw [firstDedup_of_nodup _ hnodup]
    omega
  unfold remove_duplicates
  simp [hcount]

def dfW4 : Dataset :=
  ⟨[("a", "float64")], [[Cell.num 1], [Cell.num 1], [Cell.num 2]]⟩

theorem C4_witness :
    remove_duplicates (drop_high_missing_columns
      (remove_duplicates (drop_high_missing_columns
        (DataPreprocessor.init dfW4) (1/2))) (1/2)) =
    remove_duplicates (drop_high_missing_columns (DataPreprocessor.init dfW4) (1/2)) :=
  C4_cleanup_idempotent_amended (DataPreprocessor.init dfW4) (by decide)

def dfC5n : Dataset :=
  ⟨[("c", "float64")],
   [[Cell.num 1], [Cell.num 2], [Cell.num 3], [Cell.num 4], [Cell.num 5],
    [Cell.num 100], [Cell.missing]]⟩

/-- C5 fails as stated ("drops exactly the rows whose value is strictly
outside the bounds"): once at least one outlier triggers the filter, rows
whose cell is missing are dropped as well, since a NaN cell satisfies neither
`>= lower` nor `<= upper`.  Here the missing row has no value at all — so it
is not strictly outside any bounds — yet it disappears together with 100. -/
theorem C5_counterexample :
    [Cell.missing] ∈ (DataPreprocessor.init dfC5n).df.rows ∧
    ([Cell.missing] : List Cell).getD 0 Cell.missing = Cell.missing ∧
    [Cell.missing] ∉ (remove_outliers (DataPreprocessor.init dfC5n) "c" "iqr").df.rows ∧
    (remove_outliers (DataPreprocessor.init dfC5n) "c" "iqr").df.rows =
      [[Cell.num 1], [Cell.num 2], [Cell.num 3], [Cell.num 4], [Cell.num 5]] := by
  refine ⟨by decide, rfl, by decide, by decide⟩

theorem countP_outlier_zero_of_no_values (df : Dataset) (i : Nat) (lb ub : ℚ)
    (h : (sortedVals df i).isEmpty) :
    df.rows.countP (outlierPred i lb ub) = 0 := by
  have hnil : numericValues df i = [] := by
    have hlen := (List.perm_insertionSort (· ≤ ·) (numericValues df i)).length_eq
    have := List.isEmpty_iff.mp h
    unfold sortedVals at this
    rw [this] at hlen
    exact List.length_eq_zero.mp hlen.symm
  apply List.countP_eq_zero.mpr
  intro r hr
  unfold outlierPred
  cases hcell : r.getD i Cell.missing with
  | num q =>
    exfalso
    have : q ∈ numericValues df i := by
      unfold numericValues
      apply List.mem_filterMap.mpr
      exact ⟨r, hr, by rw [hcell]⟩
    rw [hnil] at this
    exact absurd this (List.not_mem_nil q)
  | missing => simp
  | str s => simp

/-- C5 (amended): on an absent or non-numeric column `remove_outliers` is a
no-op; on a numeric column with IQR bounds from the linear-interpolation
quartiles, it is a no-op when no value lies strictly outside the bounds, and
otherwise keeps exactly the rows whose value lies within the bounds — i.e. it
drops the strictly-outside rows and also every row whose cell is missing.
(For `[1,2,3,4,5,100]` this removes exactly the row with 100; see witness.) -/
theorem C5_remove_outliers_amended (st : PState) (c m : String) :
    (colIdx st.df c = none → remove_outliers st c m = st) ∧
    ∀ i, colIdx st.df c = some i →
      (¬ isNumericDtype (colDtype st.df i) = true → remove_outliers st c m = st) ∧
      (isNumericDtype (colDtype st.df i) = true →
        (st.df.rows.countP (outlierPred i (lowerOf st.df i) (upperOf st.df i)) = 0 →
          remove_outliers st c m = st) ∧
        (0 < st.df.rows.countP (outlierPred i (lowerOf st.df i) (upperOf st.df i)) →
          (remove_outliers st c m).df.rows =
            st.df.rows.filter (keepPred i (lowerOf st.df i) (upperOf st.df i)) ∧
          (remove_outliers st c m).df.header = st.df.header)) := by
  constructor
  · intro h
    unfold remove_outliers
    rw [h]
  · intro i hidx
    constructor
    · intro hnn
      unfold remove_outliers
      rw [hidx]
      simp only [if_pos hnn]
    · intro hnum
      have hcond : ¬ ¬ isNumericDtype (colDtype st.df i) = true := not_not_intro hnum
      constructor
      · intro hzero
        unfold remove_outliers
        rw [hidx]
        simp only [if_neg hcond]
        by_cases hemp : (sortedVals st.df i).isEmpty
        · simp only [if_pos hemp]
        · simp only [if_neg hemp]
          rw [if_neg (by omega)]
      · intro hpos
        have hemp : ¬ (sortedVals st.df i).isEmpty := by
          intro hemp
          rw [countP_outlier_zero_of_no_values st.df i _ _ hemp] at hpos
          exact absurd hpos (by omega)
        unfold remove_outliers
        rw [hidx]
        simp only [if_neg hcond, if_neg hemp]
        rw [if_pos hpos]
        exact ⟨rfl, rfl⟩

def dfW5 : Dataset :=
  ⟨[("c", "float64")],
   [[Cell.num 1], [Cell.num 2], [Cell.num 3], [Cell.num 4], [Cell.num 5],
    [Cell.num 100]]⟩

theorem C5_witness :
    (remove_outliers (DataPreprocessor.init dfW5) "c" "iqr").df.rows =
      [[Cell.num 1], [Cell.num 2], [Cell.num 3], [Cell.num 4], [Cell.num 5]] ∧
    (numericValues (remove_outliers (DataPreprocessor.init dfW5) "c" "iqr").df 0).maximum =
      (5 : ℚ) ∧
    lowerOf (DataPreprocessor.init dfW5).df 0 = -3/2 ∧
    upperOf (DataPreprocessor.init dfW5).df 0 = 17/2 := by
  have h := ((C5_remove_outliers_amended (DataPreprocessor.init dfW5) "c" "iqr").2
    0 (by decide)).2 (by decide)
  have h2 := h.2 (by decide)
  refine ⟨?_, ?_, by decide, by decide⟩
  · rw [h2.1]
    decide
  · simp only [numericValues]
    rw [h2.1]
    decide

theorem find?_map_assocSet {β : Type} (l : List (String × β)) (k : String) (v : β)
    (b : String × β) (hf : l.find? (fun p => p.1 == k) = some b) :
    (l.map (fun p => if p.1 == k then (p.1, v) else p)).find? (fun p => p.1 == k) =
      some (k, v) := by
  induction l with
  | nil => simp at hf
  | cons a t ih =>
    rw [List.map_cons]
    by_cases h : (a.1 == k) = true
    · have hk : a.1 = k := eq_of_beq h
      rw [if_pos h]
      have hhead : List.find? (fun p => p.1 == k)
          ((a.1, v) :: t.map (fun p => if p.1 == k then (p.1, v) else p)) =
            some (a.1, v) := List.find?_cons_of_pos _ h
      rw [hhead, hk]
    · rw [if_neg h]
      have hb : (a.1 == k) = false := by simpa using h
      simp only [List.find?_cons, hb] at hf ⊢
      exact ih hf

theorem assocSet_find {β : Type} (l : List (String × β)) (k : String) (v : β) :
    (assocSet l k v).find? (fun p => p.1 == k) = some (k, v) := by
  unfold assocSet
  split
  · rename_i hf
    simp [hf]
  · rename_i b hf
    exact find?_map_assocSet l k v b hf

theorem colCells_setColumn (df : Dataset) (i : Nat) (f : Cell → Cell) (d : String)
    (hlen : ∀ r ∈ df.rows, i < r.length) :
    colCells (setColumn df i f d) i = (colCells df i).map f := by
  unfold colCells setColumn
  simp only [List.map_map]
  apply List.map_congr_left
  intro r hr
  have hlt := hlen r hr
  simp only [Function.comp]
  rw [List.getD_eq_getElem _ _ (by simpa using hlt), List.getElem_set_self,
    List.getD_eq_getElem _ _ hlt]

theorem mem_labelClasses (strs : List String) (s : String) (h : s ∈ strs) :
    s ∈ labelClasses strs := by
  unfold labelClasses
  rw [List.mem_insertionSort]
  exact List.mem_dedup.mpr h

theorem getD_indexOf_self (l : List String) (s : String) (h : s ∈ l) :
    l.getD (l.indexOf s) "" = s := by
  have hlt : l.indexOf s < l.length := List.indexOf_lt_length.mpr h
  rw [List.getD_eq_getElem l "" hlt]
  exact List.getElem_indexOf hlt

/-- C6 (amended): label encoding replaces each cell of a text column by the
index of its stringified value in the lexicographically sorted list of
distinct values (dense codes, identical occurrences mapped identically); the
value→code mapping (sorted classes zipped with 0,1,2,…) is recorded in the
report's `encodings_applied` — NOT in the step log, whose appended entry
carries only step/details/column/method/encoding_type — and that mapping
decodes every code back to the original stringified value. -/
theorem C6_label_encoding (st : PState) (c : String) (i : Nat)
    (hidx : colIdx st.df c = some i)
    (hdt : colDtype st.df i = "object")
    (hlen : ∀ r ∈ st.df.rows, i < r.length) :
    ∃ st', encode_categorical st c "label" = Except.ok st' ∧
      (labelClasses ((colCells st.df i).map stringify)).Sorted strLe ∧
      (labelClasses ((colCells st.df i).map stringify)).Nodup ∧
      colCells st'.df i = ((colCells st.df i).map stringify).map
        (fun s => Cell.num
          (((labelClasses ((colCells st.df i).map stringify)).indexOf s : Nat) : ℚ)) ∧
      st'.report.encodings_applied.find? (fun p => p.1 == c) =
        some (c, ⟨"label", "Label Encoding",
          (labelClasses ((colCells st.df i).map stringify)).zip
            (List.range (labelClasses ((colCells st.df i).map stringify)).length), []⟩) ∧
      ((colCells st.df i).map stringify).map
          (fun s => (labelClasses ((colCells st.df i).map stringify)).getD
            ((labelClasses ((colCells st.df i).map stringify)).indexOf s) "") =
        (colCells st.df i).map stringify ∧
      st'.steps = st.steps ++
        [{ mkStep "encode_categorical" ("Applied Label Encoding to " ++ c)
            with
            column := some c,
            method := some "label",
            encoding_type := some "Label Encoding" }] := by
  have henc : encode_categorical st c "label" = Except.ok
      { st with
        df := setColumn st.df i
          (fun cell => Cell.num
            (((labelClasses ((colCells st.df i).map stringify)).indexOf
              (stringify cell) : Nat) : ℚ)) "int64",
        steps := st.steps ++
          [{ mkStep "encode_categorical" ("Applied Label Encoding to " ++ c)
              with
              column := some c,
              method := some "label",
              encoding_type := some "Label Encoding" }],
        report := { st.report with
          encodings_applied := assocSet st.report.encodings_applied c
            ⟨"label", "Label Encoding",
              (labelClasses ((colCells st.df i).map stringify)).zip
                (List.range (labelClasses ((colCells st.df i).map stringify)).length),
              []⟩ } } := by
    unfold encode_categorical
    simp only [hidx]
    rw [if_neg (not_not_intro hdt)]
    rw [if_pos trivial]
  refine ⟨_, henc, List.sorted_insertionSort strLe _,
    ((List.perm_insertionSort strLe _).nodup_iff).mpr (List.nodup_dedup _), ?_, ?_, ?_, rfl⟩
  · rw [colCells_setColumn st.df i _ "int64" hlen, List.map_map]
    apply List.map_congr_left
    intro r _
    rfl
  · exact assocSet_find _ c _
  · conv_rhs => rw [← List.map_id ((colCells st.df i).map stringify)]
    apply List.map_congr_left
    intro s hs
    exact getD_indexOf_self _ s (mem_labelClasses _ s hs)

def dfC6 : Dataset :=
  ⟨[("c", "object")],
   [[Cell.str "a"], [Cell.str "b"], [Cell.str "a"], [Cell.str "c"]]⟩

/-- C6 fails as stated: the value→code mapping is NOT recorded in the step
log.  The single step-log entry appended by label encoding is exactly the
record below — step name, details text, column, method and encoding type, with
every other field empty — and so carries no value→code pair at all, while the
mapping [("a",0),("b",1),("c",2)] is recorded in `report['encodings_applied']`
(preprocessing.py appends only step/details/column/method/encoding_type to
`self.steps` and stores the mapping in the report). -/
theorem C6_counterexample :
    (encode_categorical (DataPreprocessor.init dfC6) "c" "label").toOption.map
        (fun s => s.steps) =
      some [⟨"encode_categorical", "Applied Label Encoding to c", some "c",
        some "label", none, [], none, none, none, none, none,
        some "Label Encoding"⟩] ∧
    (encode_categorical (DataPreprocessor.init dfC6) "c" "label").toOption.map
        (fun s => s.report.encodings_applied) =
      some [("c", ⟨"label", "Label Encoding", [("a", 0), ("b", 1), ("c", 2)], []⟩)] := by
  exact ⟨by decide, by decide⟩

theorem C6_witness :
    (encode_categorical (DataPreprocessor.init dfC6) "c" "label").toOption.map
        (fun s => colCells s.df 0) =
      some [Cell.num 0, Cell.num 1, Cell.num 0, Cell.num 2] ∧
    (encode_categorical (DataPreprocessor.init dfC6) "c" "label").toOption.map
        (fun s => s.report.encodings_applied.find? (fun p => p.1 == "c")) =
      some (some ("c", ⟨"label", "Label Encoding", [("a", 0), ("b", 1), ("c", 2)], []⟩)) ∧
    labelClasses ((colCells (DataPreprocessor.init dfC6).df 0).map stringify) =
      ["a", "b", "c"] ∧
    ((colCells (DataPreprocessor.init dfC6).df 0).map stringify).map
        (fun s =>
          (labelClasses ((colCells (DataPreprocessor.init dfC6).df 0).map stringify)).getD
            ((labelClasses
              ((colCells (DataPreprocessor.init dfC6).df 0).map stringify)).indexOf s) "") =
      ["a", "b", "a", "c"] := by
  obtain ⟨st', henc, hsort, hnodup, hcells, hmap, hrt, hsteps⟩ :=
    C6_label_encoding (DataPreprocessor.init dfC6) "c" 0 (by decide) rfl (by decide)
  refine ⟨?_, ?_, by decide, ?_⟩
  · rw [henc]
    show some (colCells st'.df 0) = _
    rw [hcells]
    decide
  · rw [henc]
    show some (st'.report.encodings_applied.find? (fun p => p.1 == "c")) = _
    rw [hmap]
    decide
  · rw [hrt]
    decide

def dfC7 : Dataset := ⟨[("a", "float64")], [[Cell.num 1]]⟩

/-- C7 fails as stated: a `drop_column` step naming an absent column is a pure
silent no-op — the dataset is unchanged and NO step is logged (the source only
appends the log entry inside the `if column in self.df.columns` branch), and
no error is raised; the run returns the start state itself, whose log is
empty. -/
theorem C7_counterexample :
    apply_preprocessing_steps (DataPreprocessor.init dfC7)
        [⟨"drop_column", "b", "", none⟩] =
      Except.ok (DataPreprocessor.init dfC7) ∧
    (DataPreprocessor.init dfC7).steps = [] := by
  exact ⟨by rfl, rfl⟩

/-- C7 (amended): a `drop_column` step naming a column absent from the current
dataset leaves the whole preprocessor state unchanged — dataset untouched,
nothing appended to the step log — and raises no error. -/
theorem C7_drop_absent_is_silent_noop (st : PState) (c m : String) (v : Option Cell)
    (h : colIdx st.df c = none) :
    DataPreprocessor.apply_one st ⟨"drop_column", c, m, v⟩ = Except.ok st := by
  show (if ("drop_column" : String) = "change_type" then _
    else if ("drop_column" : String) = "fill_missing" then _
    else if ("drop_column" : String) = "encode" then _
    else if ("drop_column" : String) = "remove_outliers" then _
    else if ("drop_column" : String) = "drop_column" then
      Except.ok (drop_column_step st c)
    else Except.ok st) = Except.ok st
  rw [if_neg (by decide), if_neg (by decide), if_neg (by decide), if_neg (by decide),
    if_pos rfl]
  unfold drop_column_step
  rw [h]

def dfW7 : Dataset := ⟨[("x", "object")], [[Cell.str "v"]]⟩

theorem C7_witness :
    DataPreprocessor.apply_one (DataPreprocessor.init dfW7)
        ⟨"drop_column", "y", "", none⟩ =
      Except.ok (DataPreprocessor.init dfW7) :=
  C7_drop_absent_is_silent_noop (DataPreprocessor.init dfW7) "y" "" none (by decide)

/-- C10: `change_data_type` with a `new_type` outside the six supported values
on a present column raises no error and rewrites no cell — the dataframe field
is returned untouched — yet still appends one step entry announcing
"Changed column to new_type". -/
theorem C10_unknown_type_logged_noop (st : PState) (c ty : String) (i : Nat)
    (hidx : colIdx st.df c = some i)
    (hty : ty ∉ ["numeric", "integer", "float", "datetime", "string", "category"]) :
    change_data_type st c ty = Except.ok
      { st with steps := st.steps ++
          [{ mkStep "change_data_type" ("Changed " ++ c ++ " to " ++ ty)
              with column := some c, new_type := some ty }] } := by
  have h1 : ty ≠ "numeric" := fun he => hty (by simp [he])
  have h2 : ty ≠ "integer" := fun he => hty (by simp [he])
  have h3 : ty ≠ "float" := fun he => hty (by simp [he])
  have h4 : ty ≠ "datetime" := fun he => hty (by simp [he])
  have h5 : ty ≠ "string" := fun he => hty (by simp [he])
  have h6 : ty ≠ "category" := fun he => hty (by simp [he])
  unfold change_data_type
  simp only [hidx]
  rw [if_neg h1, if_neg h2, if_neg h3, if_neg h4, if_neg h5, if_neg h6]

def dfW10 : Dataset := ⟨[("a", "int64")], [[Cell.num 7]]⟩

theorem C10_witness :
    change_data_type (DataPreprocessor.init dfW10) "a" "boolean" = Except.ok
      { DataPreprocessor.init dfW10 with steps :=
          (DataPreprocessor.init dfW10).steps ++
            [{ mkStep "change_data_type" ("Changed " ++ "a" ++ " to " ++ "boolean")
                with column := some "a", new_type := some "boolean" }] } :=
  C10_unknown_type_logged_noop (DataPreprocessor.init dfW10) "a" "boolean" 0
    (by decide) (by decide)

/-- C8: `evaluate_models` rejects inputs with fewer than 20 rows with the
insufficient-data error before invoking the splitter, the per-model training
routine or the k-means pass (the result is this fixed error for every choice
of those procedures); with 20 or more rows it first performs the train/test
split and only then runs the model battery over the split partitions. -/
theorem C8_insufficient_data_guard (sf : SplitFn) (ts : TrainScoreFn) (km : KMeansFn)
    (X : Features) (y : Target) (pt : String) (t : ℚ) :
    (X.length < 20 →
      evaluate_models sf ts km X y pt t =
        Except.error "Not enough data for model evaluation") ∧
    (20 ≤ X.length →
      evaluate_models sf ts km X y pt t =
        Except.ok (run_battery ts km (sf X y t) X y pt)) := by
  constructor
  · intro h
    unfold evaluate_models
    rw [if_pos h]
  · intro h
    unfold evaluate_models
    rw [if_neg (by omega)]

def sfW8 : ModelComparator.SplitFn := fun X y _ => ⟨X, [], y, []⟩

def tsW8 : ModelComparator.TrainScoreFn := fun _ _ => Except.ok 0

def kmW8 : ModelComparator.KMeansFn := fun _ _ => none

def X19 : ModelComparator.Features := List.replicate 19 [0]

def y19 : ModelComparator.Target := List.replicate 19 0

def X20 : ModelComparator.Features := List.replicate 20 [0]

def y20 : ModelComparator.Target := List.replicate 20 0

theorem C8_witness :
    evaluate_models sfW8 tsW8 kmW8 X19 y19 "classification" (1/5) =
      Except.error "Not enough data for model evaluation" ∧
    evaluate_models sfW8 tsW8 kmW8 X20 y20 "classification" (1/5) =
      Except.ok (run_battery tsW8 kmW8 (sfW8 X20 y20 (1/5)) X20 y20 "classification") := by
  exact ⟨(C8_insufficient_data_guard sfW8 tsW8 kmW8 X19 y19 "classification" (1/5)).1
      (by decide),
    (C8_insufficient_data_guard sfW8 tsW8 kmW8 X20 y20 "classification" (1/5)).2
      (by decide)⟩

theorem filter_filterMap_key_not_mem (f : String → Option ComparisonRow)
    (hmodel : ∀ m row, f m = some row → row.model = m)
    (names : List String) (n : String) (hn : n ∉ names) :
    (names.filterMap f).filter (fun row => row.model == n) = [] := by
  induction names with
  | nil => rfl
  | cons a t ih =>
    have hna : n ≠ a := fun he => hn (he ▸ List.mem_cons_self a t)
    have hnt : n ∉ t := fun he => hn (List.mem_cons_of_mem a he)
    rw [List.filterMap_cons]
    cases hfa : f a with
    | none => exact ih hnt
    | some row =>
      rw [List.filter_cons_of_neg, ih hnt]
      simp only [hmodel a row hfa, beq_iff_eq]
      exact fun h => hna h.symm

theorem filter_filterMap_key_mem (f : String → Option ComparisonRow)
    (hmodel : ∀ m row, f m = some row → row.model = m)
    (names : List String) (n : String) (hnd : names.Nodup) (hn : n ∈ names) :
    (names.filterMap f).filter (fun row => row.model == n) = (f n).toList := by
  induction names with
  | nil => exact absurd hn (List.not_mem_nil n)
  | cons a t ih =>
    rcases List.nodup_cons.mp hnd with ⟨hat, htnd⟩
    rw [List.filterMap_cons]
    rcases List.mem_cons.mp hn with rfl | hnt
    · have hnotmem : n ∉ t := hat
      cases hfa : f n with
      | none => exact filter_filterMap_key_not_mem f hmodel t n hnotmem
      | some row =>
        rw [List.filter_cons_of_pos, filter_filterMap_key_not_mem f hmodel t n hnotmem]
        · rfl
        · simp [hmodel n row hfa]
    · have hna : n ≠ a := fun he => hat (he ▸ hnt)
      cases hfa : f a with
      | none => exact ih htnd hnt
      | some row =>
        rw [List.filter_cons_of_neg, ih htnd hnt]
        simp only [hmodel a row hfa, beq_iff_eq]
        exact fun h => hna h.symm

theorem pairRow_model (o p : List ModelResult) (m : String) (row : ComparisonRow)
    (h : pairRow o p m = some row) : row.model = m := by
  unfold pairRow at h
  cases h1 : findSuccess o m with
  | none => rw [h1] at h; exact absurd h (by simp)
  | some r1 =>
    cases h2 : findSuccess p m with
    | none => rw [h1, h2] at h; exact absurd h (by simp)
    | some r2 =>
      rw [h1, h2] at h
      cases h
      rfl

theorem mem_successNames_of_findSuccess (rs : List ModelResult) (n : String)
    (r : ModelResult) (h : findSuccess rs n = some r) : n ∈ successNames rs := by
  have hpred := List.find?_some h
  have hmem := List.mem_of_find?_eq_some h
  rw [Bool.and_eq_true] at hpred
  have hmodel : r.model = n := by simpa using hpred.1
  have hstatus : (r.status == "success") = true := hpred.2
  unfold successNames
  apply List.mem_map.mpr
  exact ⟨r, List.mem_filter.mpr ⟨hmem, hstatus⟩, hmodel⟩

/-- C9: the comparison pairing emits, for a model name, exactly one row when
both the original and the processed run hold a success result for that name —
with improvement = processed score − original score — and no row at all when
either side lacks a success result for it (in particular when that side's
result for the model has error status). -/
theorem C9_comparison_pairing (o p : List ModelResult) (n : String) :
    (∀ r1 r2, findSuccess o n = some r1 → findSuccess p n = some r2 →
      (compare_rows o p).filter (fun row => row.model == n) =
        [⟨n, r1.score, r2.score,
          Score.num (scoreFloat r2.score - scoreFloat r1.score), r1.metric, "success"⟩]) ∧
    (findSuccess o n = none →
      (compare_rows o p).filter (fun row => row.model == n) = []) ∧
    (findSuccess p n = none →
      (compare_rows o p).filter (fun row => row.model == n) = []) := by
  have hnd : (firstDedup (successNames o ++ successNames p)).Nodup := nodup_firstDedup _
  refine ⟨?_, ?_, ?_⟩
  · intro r1 r2 h1 h2
    have hmem : n ∈ firstDedup (successNames o ++ successNames p) := by
      rw [mem_firstDedup]
      exact List.mem_append.mpr (Or.inl (mem_successNames_of_findSuccess o n r1 h1))
    unfold compare_rows
    rw [filter_filterMap_key_mem (pairRow o p) (pairRow_model o p) _ n hnd hmem]
    unfold pairRow
    rw [h1, h2]
    rfl
  · intro h1
    by_cases hmem : n ∈ firstDedup (successNames o ++ successNames p)
    · unfold compare_rows
      rw [filter_filterMap_key_mem (pairRow o p) (pairRow_model o p) _ n hnd hmem]
      unfold pairRow
      rw [h1]
      rfl
    · unfold compare_rows
      exact filter_filterMap_key_not_mem (pairRow o p) (pairRow_model o p) _ n hmem
  · intro h2
    by_cases hmem : n ∈ firstDedup (successNames o ++ successNames p)
    · unfold compare_rows
      rw [filter_filterMap_key_mem (pairRow o p) (pairRow_model o p) _ n hnd hmem]
      unfold pairRow
      rw [h2]
      cases findSuccess o n <;> rfl
    · unfold compare_rows
      exact filter_filterMap_key_not_mem (pairRow o p) (pairRow_model o p) _ n hmem

def oRF : List ModelResult := [⟨"RF", Score.num (4/5), "Accuracy", "success"⟩]

def pRF : List ModelResult := [⟨"RF", Score.num (17/20), "Accuracy", "success"⟩]

def pErr : List ModelResult := [⟨"RF", Score.txt "Error", "boom", "error"⟩]

theorem C9_witness :
    (compare_rows oRF pRF).filter (fun row => row.model == "RF") =
      [⟨"RF", Score.num (4/5), Score.num (17/20), Score.num (1/20), "Accuracy",
        "success"⟩] ∧
    compare_rows oRF pRF =
      [⟨"RF", Score.num (4/5), Score.num (17/20), Score.num (1/20), "Accuracy",
        "success"⟩] ∧
    |(17/20 - 4/5 : ℚ) - 1/20| ≤ 1/1000000000 ∧
    (compare_rows oRF pErr).filter (fun row => row.model == "RF") = [] ∧
    compare_rows oRF pErr = [] := by
  have h1 := (C9_comparison_pairing oRF pRF "RF").1
    ⟨"RF", Score.num (4/5), "Accuracy", "success"⟩
    ⟨"RF", Score.num (17/20), "Accuracy", "success"⟩ (by decide) (by decide)
  have h2 := (C9_comparison_pairing oRF pErr "RF").2.2 (by decide)
  refine ⟨?_, by decide, by decide, h2, by decide⟩
  rw [h1]
  decide
